import Mathlib

/-
Formal model of deepsearch.py: the document-ingestion pipeline
(IndexManager.index_files), the index store lifecycle (IndexManager.__init__),
the query surface (IndexManager.search plus OptimizedApp.on_search extension
filtering), the file parsing layer (ParserFactory / FileParser), and the
snippet generator (OptimizedApp._generate_snippet).

Python strings are modelled as List Char; Python str.lower / regex word
characters are modelled on their ASCII behaviour (Char.toLower, isAlphanum),
which is the fragment the verified properties depend on.
-/

/-! ## Snippet generator (OptimizedApp._generate_snippet) -/

/-- Model of Python content.split to the newline separator: splits at every
newline character and keeps empty segments, so the result always has
(number of newlines) + 1 segments and is never the empty list. -/
def pySplitLines : List Char → List (List Char)
  | [] => [[]]
  | c :: cs =>
    match pySplitLines cs with
    | [] => [[]]
    | l :: ls => if c == '\n' then [] :: l :: ls else (c :: l) :: ls

/-- Word character for the regex patterns in _generate_snippet, modelled on
the ASCII fragment of \w. -/
def isWordChar (c : Char) : Bool := c.isAlphanum || c == '_'

/-- Accumulator pass for tokenize: cur holds the reversed current word run. -/
def tokenizeGo : List Char → List Char → List (List Char)
  | cur, [] => if cur.isEmpty then [] else [cur.reverse]
  | cur, c :: cs =>
    if isWordChar c then tokenizeGo (c :: cur) cs
    else if cur.isEmpty then tokenizeGo [] cs else cur.reverse :: tokenizeGo [] cs

/-- Model of re.findall for the word-run pattern over an (already lowered)
character list: the maximal runs of word characters, in order. -/
def tokenize (l : List Char) : List (List Char) :=
  tokenizeGo [] l

/-- query_terms of _generate_snippet: tokenize the lowered query string. -/
def queryTerms (q : List Char) : List (List Char) :=
  tokenize (q.map Char.toLower)

/-- Does pat occur at the start of s? (helper for substring containment). -/
def listStartsWith : List Char → List Char → Bool
  | [], _ => true
  | _ :: _, [] => false
  | p :: ps, c :: cs => p == c && listStartsWith ps cs

/-- Python substring containment pat in s. -/
def listContainsSub (s pat : List Char) : Bool :=
  match s with
  | [] => pat.isEmpty
  | c :: cs => listStartsWith pat (c :: cs) || listContainsSub cs pat

/-- The per-line test of _generate_snippet: any query term occurs in the
lowered line as a substring. -/
def lineMatches (terms : List (List Char)) (line : List Char) : Bool :=
  terms.any (fun t => listContainsSub (line.map Char.toLower) t)

/-- Python str.strip: drop whitespace from both ends. -/
def pyStrip (l : List Char) : List Char :=
  ((l.dropWhile Char.isWhitespace).reverse.dropWhile Char.isWhitespace).reverse

/-- snippet_line of _generate_snippet: the first line containing any query
term, stripped; none when no line matches. -/
def selectedLine (content q : List Char) : Option (List Char) :=
  ((pySplitLines content).find? (lineMatches (queryTerms q))).map pyStrip

/-- The truncation step of _generate_snippet: lines longer than 100
characters are cut to their first 100 characters plus an ellipsis. -/
def truncate100 (l : List Char) : List Char :=
  if 100 < l.length then l.take 100 ++ ['.', '.', '.'] else l

/-- The snippet variable of _generate_snippet before highlight markers are
added: the selected line, truncated; none when no line matched or the
stripped line is empty (the falsy branch of the Python if). -/
def snippetPre (content q : List Char) : Option (List Char) :=
  match selectedLine content q with
  | some sl => if sl.isEmpty then none else some (truncate100 sl)
  | none => none

/-- Case-insensitive equality of two character lists (ASCII lowering). -/
def lowerEq (a b : List Char) : Bool :=
  a.map Char.toLower == b.map Char.toLower

/-- Does the term match, case-insensitively, at the head of s? -/
def matchHere (term s : List Char) : Bool :=
  decide (term.length ≤ s.length) && lowerEq (s.take term.length) term

/-- Is the head of l a word character? (false at the end of the string). -/
def wordAt (l : List Char) : Bool :=
  match l with
  | [] => false
  | c :: _ => isWordChar c

/-- Scan for the word-bounded substitution of _generate_snippet: each
case-insensitive occurrence of the (nonempty) term at a word boundary is
wrapped in double asterisks, preserving the matched text; the scan resumes
after the matched region, as re.sub does. prevWord records whether the
character just before the current position is a word character. -/
def highlightGo (t : Char) (ts : List Char) (prevWord : Bool) : List Char → List Char
  | [] => []
  | c :: cs =>
    let matched := c :: cs.take ts.length
    let rest := cs.drop ts.length
    if matchHere (t :: ts) (c :: cs) && (prevWord != isWordChar c) &&
        (isWordChar (matched.getLastD c) != wordAt rest) then
      '*' :: '*' :: matched ++ '*' :: '*' :: highlightGo t ts (isWordChar (matched.getLastD c)) rest
    else
      c :: highlightGo t ts (isWordChar c) cs
termination_by s => s.length
decreasing_by
  · simp only [List.length_cons, List.length_drop]
    omega
  · simp

/-- One re.sub pass of _generate_snippet for a single query term. Query
terms produced by the word-run pattern are never empty; an empty term is
mapped to the identity. -/
def highlightTerm (term snippet : List Char) : List Char :=
  match term with
  | [] => snippet
  | t :: ts => highlightGo t ts false snippet

/-- The fixed no-preview placeholder of _generate_snippet. -/
def previewPlaceholder : List Char :=
  '→' :: ' ' :: "[내용 미리보기 없음]".data

/-- OptimizedApp._generate_snippet: select a matching line, truncate it,
highlight every term, and prepend the arrow; with the placeholder when no
line matched and the dead empty-string branch when the line list is empty. -/
def generateSnippet (content q : List Char) : List Char :=
  match snippetPre content q with
  | some s => '→' :: ' ' :: (queryTerms q).foldl (fun acc t => highlightTerm t acc) s
  | none => if (pySplitLines content).isEmpty then [] else previewPlaceholder

theorem truncate100_length_le (l : List Char) : (truncate100 l).length ≤ 103 := by
  unfold truncate100
  by_cases h : 100 < l.length
  · simp [h, List.length_append, List.length_take]
  · simp only [h, if_false]
    omega

theorem pySplitLines_isEmpty (c : List Char) : (pySplitLines c).isEmpty = false := by
  cases c with
  | nil => rfl
  | cons a as =>
    simp only [pySplitLines]
    cases h : pySplitLines as with
    | nil => rfl
    | cons l ls => by_cases hc : a == '\n' <;> simp [hc]

/-- Claim C5: for every content string and query string, the snippet text
produced by _generate_snippet is at most 103 characters before highlight
markers are added; it is the selected matching line truncated to its first
100 characters plus a trailing ellipsis when longer than 100 characters,
and the whole line otherwise. -/
theorem c5_snippet_bound (content q s : List Char)
    (h : snippetPre content q = some s) :
    s.length ≤ 103 ∧
      ∃ l, selectedLine content q = some l ∧
        s = (if 100 < l.length then l.take 100 ++ ['.', '.', '.'] else l) := by
  unfold snippetPre at h
  cases hl : selectedLine content q with
  | none => rw [hl] at h; cases h
  | some l =>
    rw [hl] at h
    by_cases he : l.isEmpty
    · simp [he] at h
    · rw [Bool.not_eq_true] at he
      simp only [he, Bool.false_eq_true, if_false, Option.some.injEq] at h
      subst h
      exact ⟨truncate100_length_le l, l, rfl, rfl⟩

theorem c5_snippet_bound_witness :
    snippetPre (List.replicate 110 'a') ['a'] = some (List.replicate 100 'a' ++ ['.', '.', '.']) ∧
      (List.replicate 100 'a' ++ ['.', '.', '.']).length ≤ 103 :=
  ⟨by decide, (c5_snippet_bound (List.replicate 110 'a') ['a'] _ (by decide)).1⟩

/-- Claim C10: splitting any content on newlines yields at least one line,
so the empty-string branch of _generate_snippet is unreachable and every
returned preview is non-empty, beginning with the arrow-and-space marker. -/
theorem c10_snippet_nonempty (content q : List Char) :
    (pySplitLines content).isEmpty = false ∧
      ∃ t, generateSnippet content q = '→' :: ' ' :: t := by
  refine ⟨pySplitLines_isEmpty content, ?_⟩
  unfold generateSnippet
  cases h : snippetPre content q with
  | some s => exact ⟨_, rfl⟩
  | none =>
    rw [pySplitLines_isEmpty content]
    exact ⟨_, rfl⟩

/-! ## File parsing layer (ParserFactory.get_parser, FileParser.parse_file) -/

/-- Python exceptions relevant to the parsing layer. -/
inductive PyErr
  | valueError
  | otherError
deriving DecidableEq

/-- The closed set of concrete parsers dispatched by ParserFactory. -/
inductive ParserKind
  | hwp
  | hwpx
  | pdf
  | excel
deriving DecidableEq

/-- os.path.basename for POSIX paths: the part after the last slash. -/
def basenameOf (p : List Char) : List Char :=
  (p.reverse.takeWhile (fun c => !(c == '/'))).reverse

/-- The lowered extension of os.path.splitext: the suffix from the last dot
of the basename, with the leading dots of the basename not starting an
extension, then lowered — the ext computed by ParserFactory.get_parser. -/
def splitextExtLower (p : List Char) : List Char :=
  let stem := (basenameOf p).dropWhile (fun c => c == '.')
  if stem.contains '.' then
    ('.' :: (stem.reverse.takeWhile (fun c => !(c == '.'))).reverse).map Char.toLower
  else
    []

/-- ParserFactory.get_parser: dispatch on the lowered extension; an
unrecognized extension raises ValueError. -/
def parserFor (p : List Char) : Except PyErr ParserKind :=
  let ext := splitextExtLower p
  if ext == ".hwp".data then Except.ok ParserKind.hwp
  else if ext == ".hwpx".data then Except.ok ParserKind.hwpx
  else if ext == ".pdf".data then Except.ok ParserKind.pdf
  else if ext == ".xls".data || ext == ".xlsx".data then Except.ok ParserKind.excel
  else Except.error PyErr.valueError

/-- The parse method shared by the four concrete parsers, over an oracle
giving the external format library's outcome for a path: every concrete
parser catches its own exceptions and returns the empty string. -/
def parserParse (extractor : ParserKind → List Char → Except PyErr (List Char))
    (k : ParserKind) (p : List Char) : Except PyErr (List Char) :=
  match extractor k p with
  | Except.ok s => Except.ok s
  | Except.error _ => Except.ok []

/-- FileParser.parse_file with Python exceptions kept explicit: an error
value would mean an exception propagated to the caller; the try/except of
parse_file turns any exception from parser selection or parsing into the
empty string. -/
def parseFileE (extractor : ParserKind → List Char → Except PyErr (List Char))
    (p : List Char) : Except PyErr (List Char) :=
  match parserFor p with
  | Except.ok k =>
    match parserParse extractor k p with
    | Except.ok s => Except.ok s
    | Except.error _ => Except.ok []
  | Except.error _ => Except.ok []

/-- The string actually returned by FileParser.parse_file. -/
def parseFileStr (extractor : ParserKind → List Char → Except PyErr (List Char))
    (p : List Char) : List Char :=
  match parseFileE extractor p with
  | Except.ok s => s
  | Except.error _ => []

/-- Claim C9: FileParser.parse_file is total over its public interface: for
every extraction oracle and path it returns a string and never propagates
an exception, and both on an unsupported extension and on a failing
extraction the returned string is empty. -/
theorem c9_parse_file_total
    (extractor : ParserKind → List Char → Except PyErr (List Char)) (p : List Char) :
    (parseFileE extractor p).isOk = true ∧
      ((parserFor p).isOk = false → parseFileE extractor p = Except.ok []) ∧
      (∀ k e, parserFor p = Except.ok k → extractor k p = Except.error e →
        parseFileE extractor p = Except.ok []) := by
  refine ⟨?_, ?_, ?_⟩
  · unfold parseFileE parserParse
    cases parserFor p with
    | error e => rfl
    | ok k =>
      dsimp only
      cases extractor k p with
      | ok s => rfl
      | error e => rfl
  · intro h
    unfold parseFileE
    cases hk : parserFor p with
    | error e => rfl
    | ok k =>
      rw [hk] at h
      exact Bool.noConfusion h
  · intro k e hk hx
    unfold parseFileE parserParse
    rw [hk]
    dsimp only
    rw [hx]

theorem c9_parse_file_total_witness :
    parseFileE (fun _ _ => Except.error PyErr.otherError) "a.txt".data = Except.ok [] ∧
      parseFileE (fun _ _ => Except.error PyErr.otherError) "b.pdf".data = Except.ok [] :=
  ⟨(c9_parse_file_total (fun _ _ => Except.error PyErr.otherError) "a.txt".data).2.1
      (by decide),
    (c9_parse_file_total (fun _ _ => Except.error PyErr.otherError) "b.pdf".data).2.2
      ParserKind.pdf PyErr.otherError rfl rfl⟩

/-! ## Ingest pipeline (IndexManager.index_files) -/

/-- The document fields computed by parse_job for one path. -/
structure DocData where
  extension : List Char
  filename : List Char
  content : List Char
  modified : Int
deriving DecidableEq

/-- One completed parse_job, in completion order: result is none when the
job body raised (err is not None), some fields otherwise. -/
structure IngestJob where
  path : List Char
  result : Option DocData
deriving DecidableEq

/-- One invocation of the progress callback: (current, total, elapsed). -/
structure ProgressCall where
  current : Nat
  total : Nat
  elapsed : Nat
deriving DecidableEq

/-- parse_job: extension, filename and content never raise (parse_file is
total), so the job errs exactly when os.path.getmtime raises, modelled by
the mtime oracle returning none. -/
def parseJob (extractor : ParserKind → List Char → Except PyErr (List Char))
    (mtime : List Char → Option Int) (p : List Char) : IngestJob :=
  match mtime p with
  | none => ⟨p, none⟩
  | some m => ⟨p, some ⟨splitextExtLower p, basenameOf p, parseFileStr extractor p, m⟩⟩

/-- The as_completed loop of index_files, with jobs listed in completion
order and done counting completions already handled: the cancel poll runs
before handling each completion and breaks out of the loop; a job that
erred fires the progress callback with elapsed 0 inside the error branch
and then again from the finally block, and contributes no result; a
successful job appends its result and fires the callback once from the
finally block. Returns (collected results, progress calls). -/
def ingestLoop (total : Nat) (elapsedAt : Nat → Nat) (cancel : Nat → Bool) :
    Nat → List IngestJob → List (List Char × DocData) × List ProgressCall
  | _, [] => ([], [])
  | done, j :: rest =>
    if cancel done then ([], [])
    else
      let i := done + 1
      let tail := ingestLoop total elapsedAt cancel i rest
      match j.result with
      | none => (tail.1, ⟨i, total, 0⟩ :: ⟨i, total, elapsedAt i⟩ :: tail.2)
      | some d => ((j.path, d) :: tail.1, ⟨i, total, elapsedAt i⟩ :: tail.2)

/-- writer.update_document: insert-or-replace keyed by path. -/
def upsertDoc (idx : List (List Char × DocData)) (r : List Char × DocData) :
    List (List Char × DocData) :=
  idx.filter (fun e => !(e.1 == r.1)) ++ [r]

/-- IndexManager.index_files over an initial index state: run the
as_completed loop, then the single commit phase upserts every collected
result. Returns (index after commit, progress calls). -/
def indexFiles (idx0 : List (List Char × DocData)) (jobs : List IngestJob)
    (cancel : Nat → Bool) (elapsedAt : Nat → Nat) :
    List (List Char × DocData) × List ProgressCall :=
  let run := ingestLoop jobs.length elapsedAt cancel 0 jobs
  (run.1.foldl upsertDoc idx0, run.2)

/-- The number of completions the loop handles before the cancel poll stops
it (all of them when cancellation never fires). -/
def observedCount (cancel : Nat → Bool) : Nat → List IngestJob → Nat
  | _, [] => 0
  | done, _ :: rest => if cancel done then 0 else observedCount cancel (done + 1) rest + 1

/-- The progress calls a cancellation-free run makes: one call per
successful job and two per erring job (the first with elapsed 0). -/
def expectedCalls (total : Nat) (elapsedAt : Nat → Nat) :
    Nat → List IngestJob → List ProgressCall
  | _, [] => []
  | done, j :: rest =>
    let i := done + 1
    (match j.result with
     | none => [⟨i, total, 0⟩, ⟨i, total, elapsedAt i⟩]
     | some _ => [⟨i, total, elapsedAt i⟩]) ++ expectedCalls total elapsedAt i rest

theorem ingestLoop_results (total : Nat) (elapsedAt : Nat → Nat) (cancel : Nat → Bool)
    (jobs : List IngestJob) :
    ∀ done, (ingestLoop total elapsedAt cancel done jobs).1 =
      (jobs.take (observedCount cancel done jobs)).filterMap
        (fun j => j.result.map (fun d => (j.path, d))) := by
  induction jobs with
  | nil => intro done; simp [ingestLoop, observedCount]
  | cons j rest ih =>
    intro done
    by_cases h : cancel done
    · simp [ingestLoop, observedCount, h]
    · simp only [ingestLoop, observedCount, h, Bool.false_eq_true, if_false,
        List.take_succ_cons, List.filterMap_cons]
      cases hr : j.result with
      | none => simp [hr, ih]
      | some d => simp [hr, ih]

theorem ingestLoop_calls_noCancel (total : Nat) (elapsedAt : Nat → Nat)
    (jobs : List IngestJob) :
    ∀ done, (ingestLoop total elapsedAt (fun _ => false) done jobs).2 =
      expectedCalls total elapsedAt done jobs := by
  induction jobs with
  | nil => intro done; simp [ingestLoop, expectedCalls]
  | cons j rest ih =>
    intro done
    simp only [ingestLoop, expectedCalls, Bool.false_eq_true, if_false]
    cases hr : j.result with
    | none => simp [hr, ih]
    | some d => simp [hr, ih]

/-- A cancel poll that turns true once one completion has been handled. -/
def cancelAfterOne (done : Nat) : Bool := decide (1 ≤ done)

/-- A sample successfully-extracted document. -/
def sampleDoc : DocData := ⟨".pdf".data, "a.pdf".data, "x".data, 0⟩

/-- Two successful jobs on distinct paths, in completion order. -/
def twoOkJobs : List IngestJob :=
  [⟨"a".data, some sampleDoc⟩, ⟨"b".data, some sampleDoc⟩]

/-- Counterexample to claim C1: with two submitted jobs and a cancel
callback that returns true after the first completion is handled, the run
commits one document, not the two that were dispatched to the pool — the
pool drains, but results never observed by the loop are discarded, so
cancellation does reduce what ends up committed. -/
theorem c1_cancel_counterexample :
    ¬ ((indexFiles [] twoOkJobs cancelAfterOne (fun _ => 0)).1.length
        = twoOkJobs.length) := by
  decide

/-- Claim C1 (amended): the documents committed by index_files are exactly
the successfully-extracted results of the completions handled before the
cancel poll stopped the loop, upserted into the index — not all dispatched
jobs. -/
theorem c1_committed_characterization (idx0 : List (List Char × DocData))
    (jobs : List IngestJob) (cancel : Nat → Bool) (elapsedAt : Nat → Nat) :
    (indexFiles idx0 jobs cancel elapsedAt).1 =
      ((jobs.take (observedCount cancel 0 jobs)).filterMap
        (fun j => j.result.map (fun d => (j.path, d)))).foldl upsertDoc idx0 := by
  simp [indexFiles, ingestLoop_results]

/-- A single erring job (its parse_job raised). -/
def oneErrJob : List IngestJob := [⟨"a".data, none⟩]

/-- Counterexample to claim C6: in a cancellation-free run over a single
job whose extraction job erred, the progress callback fires twice (once
with elapsed 0 from the error branch, once from the finally block), not
exactly once per completed job. -/
theorem c6_double_progress_counterexample :
    ¬ ((indexFiles [] oneErrJob (fun _ => false) (fun _ => 7)).2.length
        = oneErrJob.length) := by
  decide

/-- Claim C6 (amended): in a cancellation-free run, the progress callback
fires exactly once per successfully-extracted job, with (completion index,
total, elapsed); for a job whose parse_job erred it fires twice: first with
elapsed 0 from the error branch, then with the elapsed time from the
finally block. -/
theorem c6_progress_calls (idx0 : List (List Char × DocData))
    (jobs : List IngestJob) (elapsedAt : Nat → Nat) :
    (indexFiles idx0 jobs (fun _ => false) elapsedAt).2 =
      expectedCalls jobs.length elapsedAt 0 jobs := by
  simp [indexFiles, ingestLoop_calls_noCancel]

/-! ## Extraction failures inside a batch (claim C3) -/

/-- Does extraction fail for this path: either get_parser raises the
UnsupportedFormat ValueError, or the selected parser's external extraction
raises (the parser then catches it and returns the empty string). -/
def extractionFails (extractor : ParserKind → List Char → Except PyErr (List Char))
    (p : List Char) : Bool :=
  match parserFor p with
  | Except.error _ => true
  | Except.ok k =>
    match extractor k p with
    | Except.error _ => true
    | Except.ok _ => false

theorem parseFileE_not_ok
    (extractor : ParserKind → List Char → Except PyErr (List Char)) (p : List Char)
    (h : (parserFor p).isOk = false) : parseFileE extractor p = Except.ok [] := by
  unfold parseFileE
  cases hk : parserFor p with
  | error e => rfl
  | ok k =>
    rw [hk] at h
    exact Bool.noConfusion h

theorem parseFileStr_unsupported
    (extractor : ParserKind → List Char → Except PyErr (List Char)) (p : List Char)
    (h : (parserFor p).isOk = false) : parseFileStr extractor p = [] := by
  unfold parseFileStr
  rw [parseFileE_not_ok extractor p h]

theorem parseFileStr_fails
    (extractor : ParserKind → List Char → Except PyErr (List Char)) (p : List Char)
    (h : extractionFails extractor p = true) : parseFileStr extractor p = [] := by
  unfold extractionFails at h
  cases hk : parserFor p with
  | error e =>
    exact parseFileStr_unsupported extractor p (by rw [hk]; rfl)
  | ok k =>
    rw [hk] at h
    dsimp only at h
    unfold parseFileStr parseFileE parserParse
    rw [hk]
    dsimp only
    cases hx : extractor k p with
    | error e => rfl
    | ok s =>
      rw [hx] at h
      exact Bool.noConfusion h

theorem observedCount_noCancel (jobs : List IngestJob) :
    ∀ done, observedCount (fun _ => false) done jobs = jobs.length := by
  induction jobs with
  | nil => intro done; rfl
  | cons j rest ih => intro done; simp [observedCount, ih]

/-- Counterexample to claim C3: a batch holding one file with an
unsupported extension — its extraction fails with the UnsupportedFormat
ValueError — still commits a document, so the failed file is not omitted
from the commit. -/
theorem c3_unsupported_committed_counterexample :
    ¬ ((indexFiles []
          [parseJob (fun _ _ => Except.error PyErr.otherError) (fun _ => some 0) "a.txt".data]
          (fun _ => false) (fun _ => 0)).1.length = 0) := by
  decide

/-- Claim C3 (amended): a file whose extraction fails — the UnsupportedFormat
ValueError of an unrecognized extension, or a supported format whose external
extraction raises — gets the empty string as content; such a file is not
omitted: every path whose metadata step (os.path.getmtime) succeeds yields a
job carrying a document with its extension, filename, parse_file content and
timestamp, and a job is omitted exactly when parse_job itself raised (the
metadata step failed); in a cancellation-free run over any batch of paths,
all files are processed and the commit upserts exactly the documents of the
metadata-successful paths, extraction failures included with empty content. -/
theorem c3_extraction_failure_amended
    (extractor : ParserKind → List Char → Except PyErr (List Char))
    (mtime : List Char → Option Int) :
    (∀ p, extractionFails extractor p = true → parseFileStr extractor p = []) ∧
      (∀ p m, mtime p = some m →
        parseJob extractor mtime p =
          ⟨p, some ⟨splitextExtLower p, basenameOf p, parseFileStr extractor p, m⟩⟩) ∧
      (∀ p, mtime p = none → parseJob extractor mtime p = ⟨p, none⟩) ∧
      (∀ (paths : List (List Char)) (elapsedAt : Nat → Nat),
        (indexFiles [] (paths.map (parseJob extractor mtime)) (fun _ => false) elapsedAt).1 =
          (paths.filterMap (fun p => (mtime p).map (fun m =>
            (p, (⟨splitextExtLower p, basenameOf p, parseFileStr extractor p, m⟩
              : DocData))))).foldl upsertDoc []) := by
  refine ⟨parseFileStr_fails extractor, ?_, ?_, ?_⟩
  · intro p m hm
    unfold parseJob
    rw [hm]
  · intro p hm
    unfold parseJob
    rw [hm]
  · intro paths elapsedAt
    have h1 : ∀ p ∈ paths,
        (parseJob extractor mtime p).result.map
            (fun d => ((parseJob extractor mtime p).path, d)) =
          (mtime p).map (fun m =>
            (p, (⟨splitextExtLower p, basenameOf p, parseFileStr extractor p, m⟩
              : DocData))) := by
      intro p _
      unfold parseJob
      cases hm : mtime p <;> rfl
    simp only [indexFiles, ingestLoop_results, observedCount_noCancel, List.take_length,
      List.filterMap_map, Function.comp_def]
    rw [List.filterMap_congr h1]

theorem c3_extraction_failure_witness :
    parseFileStr (fun _ _ => Except.error PyErr.otherError) "b.pdf".data = [] ∧
      parseJob (fun _ _ => Except.error PyErr.otherError) (fun _ => some 5) "b.pdf".data
        = ⟨"b.pdf".data, some ⟨splitextExtLower "b.pdf".data, basenameOf "b.pdf".data,
            parseFileStr (fun _ _ => Except.error PyErr.otherError) "b.pdf".data, 5⟩⟩ ∧
      parseJob (fun _ _ => Except.error PyErr.otherError) (fun _ => (none : Option Int))
          "a.hwpz".data
        = ⟨"a.hwpz".data, none⟩ :=
  ⟨(c3_extraction_failure_amended (fun _ _ => Except.error PyErr.otherError)
      (fun _ => some 5)).1 "b.pdf".data (by decide),
    (c3_extraction_failure_amended (fun _ _ => Except.error PyErr.otherError)
      (fun _ => some 5)).2.1 "b.pdf".data 5 rfl,
    (c3_extraction_failure_amended (fun _ _ => Except.error PyErr.otherError)
      (fun _ => (none : Option Int))).2.2.1 "a.hwpz".data rfl⟩

/-! ## Query surface (IndexManager.search, OptimizedApp.on_search) -/

/-- A stored document as returned by search: the five stored fields, with
the filename and content fields abstracted to their posting terms (the
Whoosh analyzer's token ids) for query matching, the extension kept as the
literal stored string, and modified as a timestamp. -/
structure Doc where
  path : Nat
  filenameTokens : List Nat
  contentTokens : List Nat
  extension : List Char
  modified : Int
deriving DecidableEq

/-- Modelled from the spec: a single query term matches a document when it
occurs in the filename or content field (the MultifieldParser fields). -/
def termMatches (t : Nat) (d : Doc) : Bool :=
  d.filenameTokens.contains t || d.contentTokens.contains t

/-- Modelled from the spec: AndGroup requires every term to match the
document somewhere across the fields, OrGroup at least one. -/
def docMatches (andMode : Bool) (terms : List Nat) (d : Doc) : Bool :=
  if andMode then terms.all (fun t => termMatches t d)
  else terms.any (fun t => termMatches t d)

/-- Insert a document into a list sorted by strictly descending key,
keeping earlier-inserted documents first on ties. -/
def insertByKeyDesc (key : Doc → Int) (d : Doc) : List Doc → List Doc
  | [] => [d]
  | e :: es => if key e < key d then d :: e :: es else e :: insertByKeyDesc key d es

/-- Sort documents by descending key. -/
def sortByKeyDesc (key : Doc → Int) (l : List Doc) : List Doc :=
  l.foldr (insertByKeyDesc key) []

/-- The two sort orders of IndexManager.search. -/
inductive SortMode
  | relevance
  | date
deriving DecidableEq

/-- IndexManager.search: parse the query into terms over filename and
content, collect matching documents, rank them — by the relevance score
(modelled from the spec as an abstract score parameter) or by modified-time
descending — and return at most limit = 50 hits. The 50 cap sits at the
store level, inside this function. -/
def searchHits (score : Doc → Int) (corpus : List Doc) (terms : List Nat)
    (andMode : Bool) (s : SortMode) : List Doc :=
  let matched := corpus.filter (docMatches andMode terms)
  let ranked :=
    match s with
    | SortMode.date => sortByKeyDesc (fun d => d.modified) matched
    | SortMode.relevance => sortByKeyDesc score matched
  ranked.take 50

/-- The four extension checkbuttons read by on_search. -/
structure ExtFlags where
  hwp : Bool
  hwpx : Bool
  pdf : Bool
  excel : Bool
deriving DecidableEq

/-- The filtering loop of on_search, with one continue per disabled
extension family and unknown extensions always kept. -/
def filterResults (fl : ExtFlags) : List Doc → List Doc
  | [] => []
  | r :: rs =>
    if r.extension == ".hwp".data && !fl.hwp then filterResults fl rs
    else if r.extension == ".hwpx".data && !fl.hwpx then filterResults fl rs
    else if r.extension == ".pdf".data && !fl.pdf then filterResults fl rs
    else if (r.extension == ".xls".data || r.extension == ".xlsx".data) && !fl.excel then
      filterResults fl rs
    else r :: filterResults fl rs

/-- The keep-predicate equivalent to the four continue conditions. -/
def keepDoc (fl : ExtFlags) (r : Doc) : Bool :=
  !(r.extension == ".hwp".data && !fl.hwp) &&
    !(r.extension == ".hwpx".data && !fl.hwpx) &&
    !(r.extension == ".pdf".data && !fl.pdf) &&
    !((r.extension == ".xls".data || r.extension == ".xlsx".data) && !fl.excel)

/-- on_search after query validation: one search call against the store,
then the client-side extension filter over the returned hits. -/
def onSearchResults (score : Doc → Int) (corpus : List Doc) (terms : List Nat)
    (andMode : Bool) (s : SortMode) (fl : ExtFlags) : List Doc :=
  filterResults fl (searchHits score corpus terms andMode s)

/-- Claim C7: for every query, mode and sort order, search returns at most
50 hits regardless of corpus size, and the cap is applied at the store
level: on_search filters the already-capped result list. -/
theorem c7_result_cap (score : Doc → Int) (corpus : List Doc) (terms : List Nat)
    (andMode : Bool) (s : SortMode) (fl : ExtFlags) :
    (searchHits score corpus terms andMode s).length ≤ 50 ∧
      onSearchResults score corpus terms andMode s fl =
        filterResults fl (searchHits score corpus terms andMode s) := by
  refine ⟨?_, rfl⟩
  cases s <;> exact List.length_take_le 50 _

theorem filterResults_eq_filter (fl : ExtFlags) :
    ∀ rs : List Doc, filterResults fl rs = rs.filter (keepDoc fl) := by
  intro rs
  induction rs with
  | nil => rfl
  | cons r rs ih =>
    simp only [filterResults, List.filter_cons, keepDoc]
    by_cases h1 : r.extension == ".hwp".data && !fl.hwp
    · simp [h1, ih]
    · by_cases h2 : r.extension == ".hwpx".data && !fl.hwpx
      · simp [h1, h2, ih]
      · by_cases h3 : r.extension == ".pdf".data && !fl.pdf
        · simp [h1, h2, h3, ih]
        · by_cases h4 : (r.extension == ".xls".data || r.extension == ".xlsx".data) && !fl.excel
          · simp [h1, h2, h3, h4, ih]
          · simp [h1, h2, h3, h4, ih]

/-- Claim C8: the extension filter of on_search is a pure post-filter over
the already-capped hits: its output is exactly the filter of the returned
hits by the keep-predicate, hence a sublist of them (filter-after-cap), and
on_search is the composition of one store search with that filter — it
never queries the store again. -/
theorem c8_extension_postfilter (score : Doc → Int) (corpus : List Doc)
    (terms : List Nat) (andMode : Bool) (s : SortMode) (fl : ExtFlags) :
    filterResults fl (searchHits score corpus terms andMode s) =
        (searchHits score corpus terms andMode s).filter (keepDoc fl) ∧
      (onSearchResults score corpus terms andMode s fl).Sublist
        (searchHits score corpus terms andMode s) ∧
      onSearchResults score corpus terms andMode s fl =
        filterResults fl (searchHits score corpus terms andMode s) := by
  refine ⟨filterResults_eq_filter fl _, ?_, rfl⟩
  unfold onSearchResults
  rw [filterResults_eq_filter fl _]
  exact List.filter_sublist _

/-- A corpus of 51 documents: fifty recent documents matching only term 1,
and an old document 50 matching terms 1 and 2. -/
def c4Corpus : List Doc :=
  (List.range 50).map (fun j => ⟨j, [j + 10], [1], ".pdf".data, (100 : Int) - j⟩) ++
    [⟨50, [60], [1, 2], ".pdf".data, 0⟩]

/-- Counterexample to claim C4: under date sorting, the AND-mode hit set
for terms 1 and 2 over c4Corpus is the single old document, but the OR-mode
hit set is the fifty newer documents — the 50 cap pushes the old document
out of the OR results, so the AND hits are not a subset of the OR hits. -/
theorem c4_subset_counterexample :
    ¬ (∀ h ∈ searchHits (fun _ => 0) c4Corpus [1, 2] true SortMode.date,
        h ∈ searchHits (fun _ => 0) c4Corpus [1, 2] false SortMode.date) := by
  decide

/-- Claim C4 (amended): for two terms, every document matching the query in
AND mode also matches it in OR mode — the uncapped match sets are nested —
but after the independent 50-hit caps the returned AND hit set need not be
a subset of the returned OR hit set. -/
theorem c4_match_subset (corpus : List Doc) (t1 t2 : Nat) (d : Doc)
    (h : d ∈ corpus.filter (docMatches true [t1, t2])) :
    d ∈ corpus.filter (docMatches false [t1, t2]) := by
  rw [List.mem_filter] at h ⊢
  refine ⟨h.1, ?_⟩
  have h2 := h.2
  simp [docMatches] at h2 ⊢
  tauto

theorem c4_match_subset_witness :
    (⟨0, [], [1, 2], [], 0⟩ : Doc) ∈
      [(⟨0, [], [1, 2], [], 0⟩ : Doc)].filter (docMatches false [1, 2]) :=
  c4_match_subset [⟨0, [], [1, 2], [], 0⟩] 1 2 ⟨0, [], [1, 2], [], 0⟩ (by decide)

/-! ## Index store lifecycle (IndexManager.__init__) -/

/-- The state of the persistent index directory: whether the directory
exists, and whether it holds the index structure created by create_in. -/
structure StoreDir where
  dirExists : Bool
  hasIndex : Bool
deriving DecidableEq

/-- Failure of whoosh.index.open_dir: opening a directory that holds no
index raises EmptyIndexError. -/
inductive OpenError
  | emptyIndex
deriving DecidableEq

/-- IndexManager.__init__ on a directory state: when the directory does not
exist, os.makedirs and create_in produce it with the schema-defined index
inside; then open_dir opens the directory, which succeeds exactly when an
index is present. Returns the resulting directory state. -/
def openOrCreate (fs : StoreDir) : Except OpenError StoreDir :=
  let fs1 := if !fs.dirExists then (⟨true, true⟩ : StoreDir) else fs
  if fs1.hasIndex then Except.ok fs1 else Except.error OpenError.emptyIndex

/-- Counterexample to claim C2: on a directory that exists but is empty, the
constructor skips creation and open_dir fails, so construction does not
succeed in all three cases. -/
theorem c2_empty_dir_counterexample :
    openOrCreate ⟨true, false⟩ = Except.error OpenError.emptyIndex := by
  rfl

/-- Claim C2 (amended): constructing the IndexManager succeeds exactly when
the index directory is absent (it is then created with the schema-defined
structure) or already holds an index (it is opened); on an existing but
empty directory, construction fails with EmptyIndexError instead of
creating the index. When construction succeeds, it is idempotent: rerunning
it on the resulting state succeeds and leaves the state unchanged. -/
theorem c2_open_or_create (fs : StoreDir) :
    (openOrCreate fs).isOk = (!fs.dirExists || fs.hasIndex) ∧
      ∀ fs2, openOrCreate fs = Except.ok fs2 → openOrCreate fs2 = Except.ok fs2 := by
  rcases fs with ⟨de, hi⟩
  cases de <;> cases hi <;> refine ⟨rfl, fun fs2 h => ?_⟩
  · cases h; rfl
  · cases h; rfl
  · exact Except.noConfusion h
  · cases h; rfl

theorem c2_open_or_create_witness :
    openOrCreate ⟨true, true⟩ = Except.ok ⟨true, true⟩ :=
  (c2_open_or_create ⟨false, false⟩).2 ⟨true, true⟩ rfl
